import Mathlib

/-!
Shallow embedding of the goaqara client (Go package `aqara`).

Machine words are modelled as `Nat` reduced modulo `2^32` where the Go code
relies on 32-bit overflow (the MD5 compression function); bytes are `Nat`
values below 256.  Strings are Lean `String`s; the conversion `[]byte(s)`
performed by Go before hashing is modelled by an explicit UTF-8 encoder.
-/

namespace Aqara

/-- Modulus of 32-bit words (`2^32`). -/
def M32 : Nat := 4294967296

/-- All-ones 32-bit mask (`0xffffffff`), used to model bitwise NOT. -/
def mask32 : Nat := M32 - 1

/-- Left rotation of a 32-bit word (operand of MD5's `bits.RotateLeft32`). -/
def rotl32 (x n : Nat) : Nat := ((x <<< n) % M32) ||| (x >>> (32 - n))

/-- Little-endian byte decomposition: `n` bytes of `x`, least significant first. -/
def leBytes : Nat → Nat → List Nat
  | 0, _ => []
  | n + 1, x => (x % 256) :: leBytes n (x / 256)

/-- MD5 sine-derived round constants `K[0..63]` (RFC 1321). -/
def md5K : List Nat :=
  [0xd76aa478, 0xe8c7b756, 0x242070db, 0xc1bdceee,
   0xf57c0faf, 0x4787c62a, 0xa8304613, 0xfd469501,
   0x698098d8, 0x8b44f7af, 0xffff5bb1, 0x895cd7be,
   0x6b901122, 0xfd987193, 0xa679438e, 0x49b40821,
   0xf61e2562, 0xc040b340, 0x265e5a51, 0xe9b6c7aa,
   0xd62f105d, 0x02441453, 0xd8a1e681, 0xe7d3fbc8,
   0x21e1cde6, 0xc33707d6, 0xf4d50d87, 0x455a14ed,
   0xa9e3e905, 0xfcefa3f8, 0x676f02d9, 0x8d2a4c8a,
   0xfffa3942, 0x8771f681, 0x6d9d6122, 0xfde5380c,
   0xa4beea44, 0x4bdecfa9, 0xf6bb4b60, 0xbebfbc70,
   0x289b7ec6, 0xeaa127fa, 0xd4ef3085, 0x04881d05,
   0xd9d4d039, 0xe6db99e5, 0x1fa27cf8, 0xc4ac5665,
   0xf4292244, 0x432aff97, 0xab9423a7, 0xfc93a039,
   0x655b59c3, 0x8f0ccc92, 0xffeff47d, 0x85845dd1,
   0x6fa87e4f, 0xfe2ce6e0, 0xa3014314, 0x4e0811a1,
   0xf7537e82, 0xbd3af235, 0x2ad7d2bb, 0xeb86d391]

/-- MD5 per-round left-rotation amounts `S[0..63]` (RFC 1321). -/
def md5S : List Nat :=
  [7, 12, 17, 22, 7, 12, 17, 22, 7, 12, 17, 22, 7, 12, 17, 22,
   5, 9, 14, 20, 5, 9, 14, 20, 5, 9, 14, 20, 5, 9, 14, 20,
   4, 11, 16, 23, 4, 11, 16, 23, 4, 11, 16, 23, 4, 11, 16, 23,
   6, 10, 15, 21, 6, 10, 15, 21, 6, 10, 15, 21, 6, 10, 15, 21]

/-- MD5 round function F. -/
def md5F (b c d : Nat) : Nat := (b &&& c) ||| ((mask32 ^^^ b) &&& d)

/-- MD5 round function G. -/
def md5G (b c d : Nat) : Nat := (d &&& b) ||| ((mask32 ^^^ d) &&& c)

/-- MD5 round function H. -/
def md5H (b c d : Nat) : Nat := b ^^^ c ^^^ d

/-- MD5 round function I. -/
def md5I (b c d : Nat) : Nat := c ^^^ (b ||| (mask32 ^^^ d))

/-- Little-endian 32-bit word number `j` of a 64-byte block. -/
def leWord (block : List Nat) (j : Nat) : Nat :=
  block.getD (4 * j) 0 + 256 * block.getD (4 * j + 1) 0 +
    65536 * block.getD (4 * j + 2) 0 + 16777216 * block.getD (4 * j + 3) 0

/-- The sixteen message words of a 64-byte block. -/
def blockWords (block : List Nat) : List Nat := (List.range 16).map (leWord block)

/-- One MD5 round `i` (0 ≤ i < 64) on register state `(a, b, c, d)`. -/
def md5Step (m : List Nat) (i : Nat) (st : Nat × Nat × Nat × Nat) :
    Nat × Nat × Nat × Nat :=
  let a := st.1
  let b := st.2.1
  let c := st.2.2.1
  let d := st.2.2.2
  let f :=
    if i < 16 then md5F b c d
    else if i < 32 then md5G b c d
    else if i < 48 then md5H b c d
    else md5I b c d
  let g :=
    if i < 16 then i
    else if i < 32 then (5 * i + 1) % 16
    else if i < 48 then (3 * i + 5) % 16
    else (7 * i) % 16
  let u := (f + a + md5K.getD i 0 + m.getD g 0) % M32
  (d, (b + rotl32 u (md5S.getD i 0)) % M32, b, c)

/-- Runs the last `fuel` of the 64 MD5 rounds (round index is `64 - fuel`). -/
def md5Rounds (m : List Nat) : Nat → Nat × Nat × Nat × Nat → Nat × Nat × Nat × Nat
  | 0, st => st
  | n + 1, st => md5Rounds m n (md5Step m (63 - n) st)

/-- MD5 compression of one 64-byte block into the chaining state. -/
def md5Block (st : Nat × Nat × Nat × Nat) (block : List Nat) :
    Nat × Nat × Nat × Nat :=
  let r := md5Rounds (blockWords block) 64 st
  ((st.1 + r.1) % M32, (st.2.1 + r.2.1) % M32,
   (st.2.2.1 + r.2.2.1) % M32, (st.2.2.2 + r.2.2.2) % M32)

/-- MD5 padding: a `0x80` byte, zeros to 56 mod 64, then the 64-bit
little-endian bit length. -/
def padBytes (msg : List Nat) : List Nat :=
  msg ++ 128 :: List.replicate ((119 - msg.length % 64) % 64) 0 ++
    leBytes 8 ((msg.length * 8) % 2 ^ 64)

/-- Splits a byte list into chunks of 64, structurally recursing on a fuel
bound; `fuel ≥ l.length` suffices since every chunk consumes at least one byte. -/
def chunksGo (fuel : Nat) (l : List Nat) : List (List Nat) :=
  match fuel with
  | 0 => []
  | n + 1 => if l = [] then [] else l.take 64 :: chunksGo n (l.drop 64)

/-- Splits a byte list into chunks of 64 (the padded input is a multiple of 64). -/
def chunks64 (l : List Nat) : List (List Nat) := chunksGo l.length l

/-- MD5 initial chaining values. -/
def md5Init : Nat × Nat × Nat × Nat := (0x67452301, 0xefcdab89, 0x98badcfe, 0x10325476)

/-- MD5 digest of a byte sequence, as its 16 bytes (models Go's `md5.Sum`). -/
def md5Bytes (msg : List Nat) : List Nat :=
  let r := (chunks64 (padBytes msg)).foldl md5Block md5Init
  leBytes 4 r.1 ++ leBytes 4 r.2.1 ++ leBytes 4 r.2.2.1 ++ leBytes 4 r.2.2.2

/-- Lowercase hexadecimal digit table (Go's `encoding/hex` constant
`hextable = "0123456789abcdef"`). -/
def hexTable : List Char := "0123456789abcdef".data

/-- The two hex digits of one byte, high nibble first (one iteration of Go's
`hex.Encode` loop). -/
def hexPair (b : Nat) : List Char :=
  [hexTable.getD (b >>> 4) '0', hexTable.getD (b &&& 15) '0']

/-- Hex encoding of a byte sequence (models Go's `hex.EncodeToString`). -/
def hexEncode (bytes : List Nat) : String := ⟨bytes.flatMap hexPair⟩

/-- UTF-8 encoding of one code point. -/
def charUtf8 (n : Nat) : List Nat :=
  if n < 128 then [n]
  else if n < 2048 then [192 ||| (n >>> 6), 128 ||| (n &&& 63)]
  else if n < 65536 then
    [224 ||| (n >>> 12), 128 ||| ((n >>> 6) &&& 63), 128 ||| (n &&& 63)]
  else
    [240 ||| (n >>> 18), 128 ||| ((n >>> 12) &&& 63),
     128 ||| ((n >>> 6) &&& 63), 128 ||| (n &&& 63)]

/-- UTF-8 bytes of a string (models Go's `[]byte(s)` conversion). -/
def utf8Bytes (s : String) : List Nat := s.data.flatMap fun c => charUtf8 c.toNat

/-- ASCII case-folding of a string: maps `A`-`Z` to `a`-`z` character-wise
(`Char.toLower` folds only ASCII letters). This is the lowering the
specification words name ("ASCII case-folding"); it is NOT the lowering the Go
source applies — see `toLowerGo`. -/
def toLowerStr (s : String) : String := ⟨s.data.map Char.toLower⟩

/-- Modelled fragment of Go's `unicode.ToLower`, the rune mapping
`strings.ToLower` applies: the ASCII row (`A`-`Z` map to `a`-`z`) and the
Latin-1 supplement row (`À`-`Þ` except the multiplication sign `×` map to
`à`-`þ`, code point + 32) of the Unicode simple lowercase table. Code points
above U+00FF are returned unchanged, so the embedding is faithful for strings
over the Latin-1 range; Go would additionally lower uppercase letters of
further scripts (e.g. Greek). -/
def charToLowerGo (c : Char) : Char :=
  if 65 ≤ c.toNat ∧ c.toNat ≤ 90 then Char.ofNat (c.toNat + 32)
  else if (192 ≤ c.toNat ∧ c.toNat ≤ 222) ∧ c.toNat ≠ 215 then Char.ofNat (c.toNat + 32)
  else c

/-- Rune-wise lowering of a string (models Go's `strings.ToLower` through the
`charToLowerGo` fragment of the Unicode table). -/
def toLowerGo (s : String) : String := ⟨s.data.map charToLowerGo⟩

/-- Client state: credentials, account, session tokens and the debug flag
(struct `AqaraClient`, `src/unnamed/part_001`). -/
structure AqaraClient where
  region : String
  appID : String
  keyID : String
  appKey : String
  account : String
  accessToken : String
  refreshToken : String
  debug : Bool
  deriving Repr, DecidableEq

/-- Constructor `New`: stores the credentials and starts with empty tokens. -/
def New (region appID keyID appKey account : String) (debug : Bool) : AqaraClient :=
  { region := region
    appID := appID
    keyID := keyID
    appKey := appKey
    account := account
    accessToken := ""
    refreshToken := ""
    debug := debug }

/-- Signature computation (`sign`, `src/unnamed/part_001` lines 270-282):
canonical string, `strings.ToLower`, MD5, lowercase hex. -/
def AqaraClient.sign (a : AqaraClient) (accessToken nonce timestamp : String) : String :=
  let s :=
    if accessToken.length ≠ 0 then
      "Accesstoken=" ++ accessToken ++ "&Appid=" ++ a.appID ++ "&Keyid=" ++ a.keyID ++
        "&Nonce=" ++ nonce ++ "&Time=" ++ timestamp ++ a.appKey
    else
      "Appid=" ++ a.appID ++ "&Keyid=" ++ a.keyID ++
        "&Nonce=" ++ nonce ++ "&Time=" ++ timestamp ++ a.appKey
  hexEncode (md5Bytes (utf8Bytes (toLowerGo s)))

/-- Intent-specific request payloads (the anonymous `Data` structs of
`GetAuthCode`, `GetToken` and `GetDevices`). -/
inductive RequestData where
  | authCodeData (account : String) (accountType : Int) (accessTokenValidity : String)
  | tokenData (authCode : String) (account : String) (accountType : Int)
  | deviceData (dids : List String) (positionId : String) (pageNum pageSize : Int)
  deriving Repr, DecidableEq

/-- Request envelope (`AqaraRequest`): an intent plus its payload. -/
structure AqaraRequest where
  intent : String
  data : RequestData
  deriving Repr, DecidableEq

/-- Fields of a device record as they may appear in a `result` JSON object
(each is optional: Go leaves absent fields at their zero value). -/
structure DeviceJson where
  did : Option String := none
  parentDid : Option String := none
  positionId : Option String := none
  createTime : Option String := none
  updateTime : Option String := none
  model : Option String := none
  modelType : Option Int := none
  state : Option Int := none
  firmwareVersion : Option String := none
  deviceName : Option String := none
  timeZone : Option String := none
  deriving Repr, DecidableEq

/-- Fields of a `result` JSON object relevant to any intent of this client.
JSON objects are open: Go's decoder ignores unknown fields, so decoding an
object into either typed result struct always succeeds, defaulting absent
fields. -/
structure ResultJson where
  expiresIn : Option String := none
  openId : Option String := none
  accessToken : Option String := none
  refreshToken : Option String := none
  data : Option (List DeviceJson) := none
  totalCount : Option Int := none
  deriving Repr, DecidableEq

/-- Raw `result` payload bytes as seen by the second-phase decode: either a
JSON object, or a JSON value of another shape, which `json.Unmarshal` into a
struct rejects. -/
inductive RawResult where
  | notObject
  | obj (r : ResultJson)
  deriving Repr, DecidableEq

/-- Response-envelope JSON object; every field is optional ( `{}` is the
object with no fields). -/
structure EnvelopeJson where
  code : Option Int := none
  requestId : Option String := none
  message : Option String := none
  messageDetail : Option String := none
  result : Option RawResult := none
  deriving Repr, DecidableEq

/-- Outcome of reading a 200 response body: a read failure (`io.ReadAll`
error), a syntactically invalid JSON body (`json.Unmarshal` returns an error
and writes nothing), or a decoded envelope object. -/
inductive Body where
  | readError
  | malformed
  | json (env : EnvelopeJson)
  deriving Repr, DecidableEq

/-- Outcome of `client.Do`: a network error, or an HTTP status with a body. -/
inductive TransportResult where
  | networkError
  | response (status : Nat) (body : Body)
  deriving Repr, DecidableEq

/-- Decoded response envelope (struct `AqaraResponse`); the defaults are Go's
zero values, which `json.Unmarshal` leaves in place for absent fields. -/
structure AqaraResponse where
  code : Int := 0
  requestId : String := ""
  message : String := ""
  messageDetail : String := ""
  result : Option RawResult := none
  deriving Repr, DecidableEq

/-- Decoding an envelope JSON object into `AqaraResponse`: present fields are
taken, absent fields keep the zero value. -/
def decodeEnvelope (env : EnvelopeJson) : AqaraResponse :=
  { code := env.code.getD 0
    requestId := env.requestId.getD ""
    message := env.message.getD ""
    messageDetail := env.messageDetail.getD ""
    result := env.result }

/-- The errors `apiCall` returns, one per `return err` / `fmt.Errorf` site. -/
inductive ApiError where
  | networkError
  | transportStatus (status : Nat)
  | readBodyError
  | decodeError
  | vendorError (code : Int) (messageDetail : String)
  deriving Repr, DecidableEq

/-- The outbound HTTP request `apiCall` constructs: URL, headers in insertion
order, and the marshalled envelope (kept structured). -/
structure HttpRequest where
  url : String
  headers : List (String × String)
  intent : String
  data : RequestData
  deriving Repr, DecidableEq

/-- Request construction inside `apiCall`: URL, signature and headers
(`src/unnamed/part_001` lines 198-229). -/
def buildRequest (a : AqaraClient) (req : AqaraRequest) (authenticated : Bool)
    (nonce timestamp : String) : HttpRequest :=
  let signature :=
    if authenticated then a.sign a.accessToken nonce timestamp
    else a.sign "" nonce timestamp
  { url := "https://" ++ a.region ++ "/v3.0/open/api"
    headers :=
      (if authenticated then [("Accesstoken", a.accessToken)] else []) ++
        [("Content-Type", "application/json"), ("Appid", a.appID), ("Keyid", a.keyID),
         ("Nonce", nonce), ("Time", timestamp), ("Sign", signature), ("Lang", "en")]
    intent := req.intent
    data := req.data }

/-- Shared call plumbing (`apiCall`, `src/unnamed/part_001` lines 196-267).
The nonce and timestamp that Go draws from its RNG and clock are parameters;
the transport outcome is an input. Returns the error result, the response
envelope as left in the caller's `AqaraResponse`, and the constructed
request. -/
def apiCall (a : AqaraClient) (req : AqaraRequest) (authenticated : Bool)
    (nonce timestamp : String) (transport : TransportResult) :
    Option ApiError × AqaraResponse × HttpRequest :=
  let httpReq := buildRequest a req authenticated nonce timestamp
  match transport with
  | .networkError => (some .networkError, {}, httpReq)
  | .response status body =>
    if status = 200 then
      match body with
      | .readError => (some .readBodyError, {}, httpReq)
      | .malformed => (some .decodeError, {}, httpReq)
      | .json env =>
        let resp := decodeEnvelope env
        if resp.code ≠ 0 then
          (some (.vendorError resp.code resp.messageDetail), resp, httpReq)
        else (none, resp, httpReq)
    else (some (.transportStatus status), {}, httpReq)

/-- Typed result of the `config.auth.getToken` intent (the local `Result`
struct in `GetToken`); defaults are Go's zero values. -/
structure TokenResult where
  expiresIn : String := ""
  openId : String := ""
  accessToken : String := ""
  refreshToken : String := ""
  deriving Repr, DecidableEq

/-- Second-phase decode of the raw `result` payload into `GetToken`'s typed
struct: fails (`none`) on a nil payload or a non-object, succeeds on any
object. -/
def unmarshalTokenResult : Option RawResult → Option TokenResult
  | some (.obj r) =>
    some { expiresIn := r.expiresIn.getD ""
           openId := r.openId.getD ""
           accessToken := r.accessToken.getD ""
           refreshToken := r.refreshToken.getD "" }
  | _ => none

/-- Typed device record of the `query.device.info` intent. -/
structure Device where
  did : String := ""
  parentDid : String := ""
  positionId : String := ""
  createTime : String := ""
  updateTime : String := ""
  model : String := ""
  modelType : Int := 0
  state : Int := 0
  firmwareVersion : String := ""
  deviceName : String := ""
  timeZone : String := ""
  deriving Repr, DecidableEq

/-- Typed result of the `query.device.info` intent. -/
structure DeviceQueryResult where
  data : List Device := []
  totalCount : Int := 0
  deriving Repr, DecidableEq

/-- Decoding a device JSON object, defaulting absent fields to zero values. -/
def decodeDeviceJson (d : DeviceJson) : Device :=
  { did := d.did.getD ""
    parentDid := d.parentDid.getD ""
    positionId := d.positionId.getD ""
    createTime := d.createTime.getD ""
    updateTime := d.updateTime.getD ""
    model := d.model.getD ""
    modelType := d.modelType.getD 0
    state := d.state.getD 0
    firmwareVersion := d.firmwareVersion.getD ""
    deviceName := d.deviceName.getD ""
    timeZone := d.timeZone.getD "" }

/-- Second-phase decode of the raw `result` payload into `GetDevices`' typed
struct. -/
def unmarshalDeviceResult : Option RawResult → Option DeviceQueryResult
  | some (.obj r) =>
    some { data := (r.data.getD []).map decodeDeviceJson
           totalCount := r.totalCount.getD 0 }
  | _ => none

/-- Operation `GetAuthCode` (`src/unnamed/part_001` lines 70-91): issues an
unauthenticated `config.auth.getAuthCode` call, only logging a failure; the
client state is returned alongside the call's error outcome. -/
def GetAuthCode (a : AqaraClient) (nonce timestamp : String)
    (transport : TransportResult) : AqaraClient × Option ApiError :=
  let request : AqaraRequest :=
    { intent := "config.auth.getAuthCode"
      data := .authCodeData a.account 0 "1h" }
  (a, (apiCall a request false nonce timestamp transport).1)

/-- Operation `GetToken` (`src/unnamed/part_001` lines 94-134): issues an
unauthenticated `config.auth.getToken` call; whenever the response envelope
left in `response` has code 0 it decodes the typed result (using the zero
value if that decode fails) and assigns both token fields. The third
component records the typed-decode attempt: `none` when the code-0 branch was
not entered, otherwise `some` of the decode's outcome. -/
def GetToken (a : AqaraClient) (authCode nonce timestamp : String)
    (transport : TransportResult) :
    AqaraClient × Option ApiError × Option (Option TokenResult) :=
  let request : AqaraRequest :=
    { intent := "config.auth.getToken"
      data := .tokenData authCode a.account 0 }
  let out := apiCall a request false nonce timestamp transport
  let response := out.2.1
  if response.code = 0 then
    let decoded := unmarshalTokenResult response.result
    let result := decoded.getD {}
    ({ a with accessToken := result.accessToken, refreshToken := result.refreshToken },
     out.1, some decoded)
  else (a, out.1, none)

/-- Operation `GetDevices` (`src/unnamed/part_001` lines 137-192): issues an
authenticated `query.device.info` call for the first page of 100 devices and,
when the envelope code is 0, decodes and prints the device list; the client
state is never written. The third component records the typed-decode attempt
as in `GetToken`. -/
def GetDevices (a : AqaraClient) (nonce timestamp : String)
    (transport : TransportResult) :
    AqaraClient × Option ApiError × Option (Option DeviceQueryResult) :=
  let request : AqaraRequest :=
    { intent := "query.device.info"
      data := .deviceData [] "" 1 100 }
  let out := apiCall a request true nonce timestamp transport
  (a, out.1,
   if out.2.1.code = 0 then some (unmarshalDeviceResult out.2.1.result) else none)

/-! Helper lemmas about strings and the hex/digest primitives. -/

theorem string_length_eq_zero_iff (s : String) : s.length = 0 ↔ s = "" := by
  rw [String.ext_iff]
  show s.data.length = 0 ↔ s.data = []
  exact List.length_eq_zero

theorem toLowerStr_length (s : String) : (toLowerStr s).length = s.length := by
  show (s.data.map Char.toLower).length = s.data.length
  exact List.length_map s.data Char.toLower

theorem toLowerStr_append (s t : String) :
    toLowerStr (s ++ t) = toLowerStr s ++ toLowerStr t := by
  apply String.ext
  show ((s ++ t).data.map Char.toLower) = (toLowerStr s ++ toLowerStr t).data
  rw [String.data_append, String.data_append]
  exact List.map_append Char.toLower s.data t.data

/-- Canonical signing string as the specification words it (spec §4.1):
`Accesstoken={accessToken}&Appid={appID}&Keyid={keyID}&Nonce={nonce}&Time={timestamp}{appKey}`
when `accessToken` is non-empty, the same string without the leading
`Accesstoken` field when it is empty. -/
def canonicalStringSpec (appID keyID appKey accessToken nonce timestamp : String) : String :=
  if accessToken ≠ "" then
    "Accesstoken=" ++ accessToken ++ "&Appid=" ++ appID ++ "&Keyid=" ++ keyID ++
      "&Nonce=" ++ nonce ++ "&Time=" ++ timestamp ++ appKey
  else
    "Appid=" ++ appID ++ "&Keyid=" ++ keyID ++
      "&Nonce=" ++ nonce ++ "&Time=" ++ timestamp ++ appKey

/-- Signature as the specification words it: the lowercase hexadecimal
encoding of the MD5 digest of the UTF-8 bytes of the ASCII-lowercased
canonical string. -/
def signSpec (appID keyID appKey accessToken nonce timestamp : String) : String :=
  hexEncode (md5Bytes (utf8Bytes (toLowerStr
    (canonicalStringSpec appID keyID appKey accessToken nonce timestamp))))

theorem char_toNat_ofNat (m : Nat) (h : m < 55296) : (Char.ofNat m).toNat = m := by
  have hv : m.isValidChar := Or.inl h
  simp [Char.ofNat, hv, Char.ofNatAux, Char.toNat, UInt32.toNat, UInt32.ofNatCore]

theorem char_eq_of_toNat {a b : Char} (h : a.toNat = b.toNat) : a = b :=
  Char.ext (UInt32.ext h)

theorem toLower_of_upper (c : Char) (h : 65 ≤ c.toNat ∧ c.toNat ≤ 90) :
    c.toLower = Char.ofNat (c.toNat + 32) := by
  simp [Char.toLower, h]

theorem toLower_of_not_upper (c : Char) (h : ¬ (65 ≤ c.toNat ∧ c.toNat ≤ 90)) :
    c.toLower = c := by
  simp only [Char.toLower]
  rw [if_neg h]

/-- Characters with equal ASCII lowerings have equal Go lowerings: `Char.toLower`
only merges an ASCII letter with its case partner, on which `charToLowerGo`
agrees, and is the identity elsewhere. -/
theorem charToLowerGo_congr (a b : Char) (h : a.toLower = b.toLower) :
    charToLowerGo a = charToLowerGo b := by
  by_cases ha : 65 ≤ a.toNat ∧ a.toNat ≤ 90 <;>
    by_cases hb : 65 ≤ b.toNat ∧ b.toNat ≤ 90
  · rw [toLower_of_upper a ha, toLower_of_upper b hb] at h
    have hn := congrArg Char.toNat h
    rw [char_toNat_ofNat _ (by omega), char_toNat_ofNat _ (by omega)] at hn
    rw [char_eq_of_toNat (show a.toNat = b.toNat by omega)]
  · rw [toLower_of_upper a ha, toLower_of_not_upper b hb] at h
    have hbn : b.toNat = a.toNat + 32 := by
      have hn := congrArg Char.toNat h
      rw [char_toNat_ofNat _ (by omega)] at hn
      omega
    have hga : charToLowerGo a = b := by
      unfold charToLowerGo
      rw [if_pos ha]
      exact h
    have hgb : charToLowerGo b = b := by
      unfold charToLowerGo
      rw [if_neg hb, if_neg (by omega)]
    rw [hga, hgb]
  · rw [toLower_of_not_upper a ha, toLower_of_upper b hb] at h
    have han : a.toNat = b.toNat + 32 := by
      have hn := congrArg Char.toNat h
      rw [char_toNat_ofNat _ (by omega)] at hn
      omega
    have hgb : charToLowerGo b = a := by
      unfold charToLowerGo
      rw [if_pos hb]
      exact h.symm
    have hga : charToLowerGo a = a := by
      unfold charToLowerGo
      rw [if_neg ha, if_neg (by omega)]
    rw [hga, hgb]
  · rw [toLower_of_not_upper a ha, toLower_of_not_upper b hb] at h
    rw [h]

theorem map_lower_congr : ∀ (l₁ l₂ : List Char),
    l₁.map Char.toLower = l₂.map Char.toLower →
    l₁.map charToLowerGo = l₂.map charToLowerGo := by
  intro l₁
  induction l₁ with
  | nil =>
    intro l₂ h
    cases l₂ with
    | nil => rfl
    | cons b t => simp at h
  | cons a t ih =>
    intro l₂ h
    cases l₂ with
    | nil => simp at h
    | cons b t₂ =>
      simp only [List.map_cons, List.cons.injEq] at h
      simp only [List.map_cons, List.cons.injEq]
      exact ⟨charToLowerGo_congr a b h.1, ih t₂ h.2⟩

theorem toLowerGo_congr (s t : String) (h : toLowerStr s = toLowerStr t) :
    toLowerGo s = toLowerGo t :=
  String.ext (map_lower_congr s.data t.data (congrArg String.data h))

/-- ASCII strings: every character's code point is below 128. -/
def allAscii (s : String) : Prop := ∀ c ∈ s.data, c.toNat < 128

instance (s : String) : Decidable (allAscii s) :=
  inferInstanceAs (Decidable (∀ c ∈ s.data, c.toNat < 128))

theorem charToLowerGo_eq_toLower_of_ascii (c : Char) (h : c.toNat < 128) :
    charToLowerGo c = c.toLower := by
  by_cases hu : 65 ≤ c.toNat ∧ c.toNat ≤ 90
  · rw [toLower_of_upper c hu]
    unfold charToLowerGo
    rw [if_pos hu]
  · rw [toLower_of_not_upper c hu]
    unfold charToLowerGo
    rw [if_neg hu, if_neg (by omega)]

theorem toLowerGo_eq_toLowerStr_of_ascii (s : String) (h : allAscii s) :
    toLowerGo s = toLowerStr s := by
  apply String.ext
  show s.data.map charToLowerGo = s.data.map Char.toLower
  apply List.map_congr_left
  intro c hc
  exact charToLowerGo_eq_toLower_of_ascii c (h c hc)

theorem allAscii_append (s t : String) (hs : allAscii s) (ht : allAscii t) :
    allAscii (s ++ t) := by
  intro c hc
  rw [String.data_append] at hc
  rcases List.mem_append.mp hc with h | h
  · exact hs c h
  · exact ht c h

set_option maxRecDepth 10000 in
/-- C1 counterexample: for an appID containing the non-ASCII uppercase letter
`Ä`, the program lowers it to `ä` (Go's `strings.ToLower` is Unicode-wide)
before hashing, so the signature is NOT the MD5 of the ASCII-lowercased
canonical string, which keeps `Ä`; the claim's formula fails at this input. -/
theorem c1_ascii_lowering_counterexample :
    (New "open-ger.aqara.com" "Ä" "k" "s" "acct" false).sign "" "N" "1" ≠
      signSpec "Ä" "k" "s" "" "N" "1" := by
  decide

/-- C1 amended: for every appID, keyID, appKey, accessToken, nonce and
timestamp consisting of ASCII characters, `sign` on a client holding those
credentials returns the lowercase hex MD5 of the ASCII-lowercased canonical
string, with the `Accesstoken` field present exactly when the access token is
non-empty (on ASCII strings Go's Unicode lowering coincides with ASCII
case-folding). -/
theorem c1_sign_refines_spec_on_ascii (a : AqaraClient) (accessToken nonce timestamp : String)
    (hApp : allAscii a.appID) (hKey : allAscii a.keyID) (hSec : allAscii a.appKey)
    (hTok : allAscii accessToken) (hN : allAscii nonce) (hT : allAscii timestamp) :
    a.sign accessToken nonce timestamp =
      signSpec a.appID a.keyID a.appKey accessToken nonce timestamp := by
  simp only [AqaraClient.sign, signSpec, canonicalStringSpec]
  by_cases h : accessToken = ""
  · rw [if_neg (by simp [h, string_length_eq_zero_iff]), if_neg (by simp [h])]
    have hS : allAscii ("Appid=" ++ a.appID ++ "&Keyid=" ++ a.keyID ++ "&Nonce=" ++ nonce ++
        "&Time=" ++ timestamp ++ a.appKey) := by
      repeat' apply allAscii_append
      all_goals first | assumption | decide
    rw [toLowerGo_eq_toLowerStr_of_ascii _ hS]
  · have hlen : accessToken.length ≠ 0 := fun hl => h ((string_length_eq_zero_iff _).mp hl)
    rw [if_pos hlen, if_pos h]
    have hS : allAscii ("Accesstoken=" ++ accessToken ++ "&Appid=" ++ a.appID ++ "&Keyid=" ++
        a.keyID ++ "&Nonce=" ++ nonce ++ "&Time=" ++ timestamp ++ a.appKey) := by
      repeat' apply allAscii_append
      all_goals first | assumption | decide
    rw [toLowerGo_eq_toLowerStr_of_ascii _ hS]

/-- Witness for C1 amended at concrete ASCII credentials. -/
theorem c1_sign_refines_spec_on_ascii_witness :
    (New "open-ger.aqara.com" "appid" "keyid" "appkey" "acct" false).sign "tok" "N" "1" =
      signSpec "appid" "keyid" "appkey" "tok" "N" "1" :=
  c1_sign_refines_spec_on_ascii
    (New "open-ger.aqara.com" "appid" "keyid" "appkey" "acct" false) "tok" "N" "1"
    (by decide) (by decide) (by decide) (by decide) (by decide) (by decide)

set_option maxRecDepth 10000 in
/-- C2: for the client with appID `4e693d54d75db580a56d1263`, keyID
`k.78784564654feda454557` and appKey `gU7Qtxi4dWnYAdmudyxni52bWZ58b8uN`,
signing access token `532cad73c5493193d63d367016b98b27` with nonce
`C6wuzd0Qguxzelhb` and timestamp `1618914078668` yields exactly
`314a6f6fd46264e6ec872e21f88361c3`. -/
theorem c2_sign_known_vector :
    (New "open-ger.aqara.com" "4e693d54d75db580a56d1263" "k.78784564654feda454557"
        "gU7Qtxi4dWnYAdmudyxni52bWZ58b8uN" "test" false).sign
      "532cad73c5493193d63d367016b98b27" "C6wuzd0Qguxzelhb" "1618914078668" =
    "314a6f6fd46264e6ec872e21f88361c3" := by
  decide

/-- Failing input for C3: a client that already holds a non-empty token pair. -/
def c3Client : AqaraClient :=
  { region := "open-ger.aqara.com"
    appID := "appid"
    keyID := "keyid"
    appKey := "appkey"
    account := "user@example.com"
    accessToken := "oldAccess"
    refreshToken := "oldRefresh"
    debug := false }

/-- C3 (code bug): a `GetToken` call that fails in transport leaves the
caller's `AqaraResponse` at its zero value, whose code 0 sends `GetToken`
into the success branch; the typed decode of the nil payload fails, and both
token fields are overwritten with the zero value's empty strings — the prior
tokens are NOT left unchanged as the claim (and the spec) require. -/
theorem c3_getToken_clears_tokens_on_failed_call :
    c3Client.accessToken = "oldAccess" ∧ c3Client.refreshToken = "oldRefresh" ∧
    (GetToken c3Client "authcode" "nonce" "1618914078668" .networkError).1.accessToken = "" ∧
    (GetToken c3Client "authcode" "nonce" "1618914078668" .networkError).1.refreshToken = "" :=
  ⟨rfl, rfl, rfl, rfl⟩

theorem apiCall_request (a : AqaraClient) (req : AqaraRequest) (authenticated : Bool)
    (nonce timestamp : String) (tr : TransportResult) :
    (apiCall a req authenticated nonce timestamp tr).2.2 =
      buildRequest a req authenticated nonce timestamp := by
  cases tr with
  | networkError => rfl
  | response status body =>
    by_cases hs : status = 200
    · subst hs
      cases body with
      | readError => rfl
      | malformed => rfl
      | json env =>
        by_cases hc : (decodeEnvelope env).code = 0 <;> simp [apiCall, hc]
    · simp [apiCall, hs]

/-- C4: every call issued through `apiCall` signs the stored access token
exactly when `authenticated` is true (the empty string otherwise), sends the
`Accesstoken` header exactly when `authenticated` is true, and always sends
the `Content-Type`, `Appid`, `Keyid`, `Nonce`, `Time`, `Sign` and `Lang`
headers. -/
theorem c4_apiCall_headers (a : AqaraClient) (req : AqaraRequest) (authenticated : Bool)
    (nonce timestamp : String) (tr : TransportResult) :
    ("Sign", a.sign (if authenticated then a.accessToken else "") nonce timestamp)
        ∈ (apiCall a req authenticated nonce timestamp tr).2.2.headers
    ∧ ((∃ v, ("Accesstoken", v) ∈ (apiCall a req authenticated nonce timestamp tr).2.2.headers)
        ↔ authenticated = true)
    ∧ ("Content-Type", "application/json")
        ∈ (apiCall a req authenticated nonce timestamp tr).2.2.headers
    ∧ ("Appid", a.appID) ∈ (apiCall a req authenticated nonce timestamp tr).2.2.headers
    ∧ ("Keyid", a.keyID) ∈ (apiCall a req authenticated nonce timestamp tr).2.2.headers
    ∧ ("Nonce", nonce) ∈ (apiCall a req authenticated nonce timestamp tr).2.2.headers
    ∧ ("Time", timestamp) ∈ (apiCall a req authenticated nonce timestamp tr).2.2.headers
    ∧ ("Lang", "en") ∈ (apiCall a req authenticated nonce timestamp tr).2.2.headers := by
  rw [apiCall_request]
  cases authenticated <;> simp [buildRequest]

/-- C5: whenever the decoded envelope carries a non-zero status code, the
client returns a vendor error with that code and the detail message, and
neither `GetToken` nor `GetDevices` attempts the typed decode of the result
payload. -/
theorem c5_vendor_error_gating (a : AqaraClient) (req : AqaraRequest) (authenticated : Bool)
    (authCode nonce timestamp : String) (env : EnvelopeJson)
    (h : (decodeEnvelope env).code ≠ 0) :
    (apiCall a req authenticated nonce timestamp (.response 200 (.json env))).1 =
      some (.vendorError (decodeEnvelope env).code (decodeEnvelope env).messageDetail)
    ∧ (GetToken a authCode nonce timestamp (.response 200 (.json env))).2.2 = none
    ∧ (GetDevices a nonce timestamp (.response 200 (.json env))).2.2 = none := by
  refine ⟨?_, ?_, ?_⟩ <;> simp [apiCall, GetToken, GetDevices, h]

/-- Witness for C5 at a concrete vendor failure (code 108). -/
theorem c5_vendor_error_gating_witness :
    (apiCall (New "open-ger.aqara.com" "appid" "keyid" "appkey" "acct" false)
        ⟨"config.auth.getToken", .tokenData "x" "acct" 0⟩ false "n" "t"
        (.response 200 (.json { code := some 108, messageDetail := some "token expired" }))).1 =
      some (.vendorError 108 "token expired")
    ∧ (GetToken (New "open-ger.aqara.com" "appid" "keyid" "appkey" "acct" false) "x" "n" "t"
        (.response 200 (.json { code := some 108, messageDetail := some "token expired" }))).2.2 = none
    ∧ (GetDevices (New "open-ger.aqara.com" "appid" "keyid" "appkey" "acct" false) "n" "t"
        (.response 200 (.json { code := some 108, messageDetail := some "token expired" }))).2.2 = none :=
  c5_vendor_error_gating (New "open-ger.aqara.com" "appid" "keyid" "appkey" "acct" false)
    ⟨"config.auth.getToken", .tokenData "x" "acct" 0⟩ false "x" "n" "t"
    { code := some 108, messageDetail := some "token expired" } (by decide)

/-- C9: `GetAuthCode` and `GetDevices` return the client with every field
(region, appID, keyID, appKey, account, accessToken, refreshToken, debug)
unchanged, for every state and transport outcome. -/
theorem c9_getAuthCode_getDevices_frame (a : AqaraClient) (nonce timestamp : String)
    (tr : TransportResult) :
    (GetAuthCode a nonce timestamp tr).1 = a ∧ (GetDevices a nonce timestamp tr).1 = a :=
  ⟨rfl, rfl⟩

/-- C10: an HTTP 200 response whose JSON object lacks the `code` field (and,
as in `{}`, the `result` field) is treated as success: no error, envelope code
left at the zero value 0, and an absent result payload handed to the caller. -/
theorem c10_missing_code_field_success (a : AqaraClient) (req : AqaraRequest)
    (authenticated : Bool) (nonce timestamp : String) (env : EnvelopeJson)
    (hcode : env.code = none) (hres : env.result = none) :
    (apiCall a req authenticated nonce timestamp (.response 200 (.json env))).1 = none
    ∧ (apiCall a req authenticated nonce timestamp (.response 200 (.json env))).2.1.code = 0
    ∧ (apiCall a req authenticated nonce timestamp (.response 200 (.json env))).2.1.result
        = none := by
  have h0 : (decodeEnvelope env).code = 0 := by simp [decodeEnvelope, hcode]
  refine ⟨?_, ?_, ?_⟩ <;> simp [apiCall, h0, decodeEnvelope, hcode, hres]

/-- Witness for C10 at the empty JSON object `{}`. -/
theorem c10_missing_code_field_success_witness :
    (apiCall (New "open-ger.aqara.com" "appid" "keyid" "appkey" "acct" false)
        ⟨"config.auth.getAuthCode", .authCodeData "acct" 0 "1h"⟩ false "n" "t"
        (.response 200 (.json {}))).1 = none
    ∧ (apiCall (New "open-ger.aqara.com" "appid" "keyid" "appkey" "acct" false)
        ⟨"config.auth.getAuthCode", .authCodeData "acct" 0 "1h"⟩ false "n" "t"
        (.response 200 (.json {}))).2.1.code = 0
    ∧ (apiCall (New "open-ger.aqara.com" "appid" "keyid" "appkey" "acct" false)
        ⟨"config.auth.getAuthCode", .authCodeData "acct" 0 "1h"⟩ false "n" "t"
        (.response 200 (.json {}))).2.1.result = none :=
  c10_missing_code_field_success (New "open-ger.aqara.com" "appid" "keyid" "appkey" "acct" false)
    ⟨"config.auth.getAuthCode", .authCodeData "acct" 0 "1h"⟩ false "n" "t" {} rfl rfl

/-- Token-pair parity: access and refresh token both empty or both non-empty
(the Session State invariant claimed by the spec). -/
def tokensOk (a : AqaraClient) : Prop :=
  (a.accessToken = "" ∧ a.refreshToken = "") ∨
    (a.accessToken ≠ "" ∧ a.refreshToken ≠ "")

/-- Transport input for the C6 counterexample: a code-0 envelope whose result
payload carries a non-empty `accessToken` and no `refreshToken`. -/
def c6Transport : TransportResult :=
  .response 200 (.json
    { code := some 0, result := some (.obj { accessToken := some "tokenA" }) })

/-- C6 counterexample: one successful `GetToken` from a freshly constructed
client, against a server payload holding only an access token, reaches a
state with a non-empty access token and an empty refresh token — the claimed
both-empty-or-both-non-empty invariant fails on the code over arbitrary
server responses. -/
theorem c6_invariant_counterexample :
    (GetToken (New "open-ger.aqara.com" "appid" "keyid" "appkey" "acct" false)
        "ac" "nonce" "ts" c6Transport).1.accessToken = "tokenA"
    ∧ (GetToken (New "open-ger.aqara.com" "appid" "keyid" "appkey" "acct" false)
        "ac" "nonce" "ts" c6Transport).1.refreshToken = ""
    ∧ ¬ tokensOk (GetToken (New "open-ger.aqara.com" "appid" "keyid" "appkey" "acct" false)
        "ac" "nonce" "ts" c6Transport).1 := by
  refine ⟨rfl, rfl, ?_⟩
  intro htok
  rcases htok with ⟨h1, _⟩ | ⟨_, h2⟩
  · exact absurd h1 (by decide)
  · exact h2 rfl

/-- Balanced token payloads: whenever the transport outcome is a 200 response
whose envelope decodes with code 0 and whose result payload is a JSON object,
that object's `accessToken` and `refreshToken` fields (after defaulting) are
both empty or both non-empty. -/
def tokenPayloadBalanced (tr : TransportResult) : Prop :=
  ∀ env r, tr = .response 200 (.json env) → (decodeEnvelope env).code = 0 →
    env.result = some (.obj r) →
    (r.accessToken.getD "" = "" ∧ r.refreshToken.getD "" = "") ∨
      (r.accessToken.getD "" ≠ "" ∧ r.refreshToken.getD "" ≠ "")

/-- Client states reachable from `New` by `GetAuthCode`, `GetToken` and
`GetDevices`, the `GetToken` steps restricted to balanced token payloads. -/
inductive Reachable : AqaraClient → Prop where
  | init (region appID keyID appKey account : String) (debug : Bool) :
      Reachable (New region appID keyID appKey account debug)
  | authCode (a : AqaraClient) (nonce timestamp : String) (tr : TransportResult) :
      Reachable a → Reachable (GetAuthCode a nonce timestamp tr).1
  | token (a : AqaraClient) (authCode nonce timestamp : String) (tr : TransportResult) :
      Reachable a → tokenPayloadBalanced tr →
      Reachable (GetToken a authCode nonce timestamp tr).1
  | devices (a : AqaraClient) (nonce timestamp : String) (tr : TransportResult) :
      Reachable a → Reachable (GetDevices a nonce timestamp tr).1

/-- C6 amended: in every client state reachable from `New` by `GetAuthCode`,
`GetToken` and `GetDevices`, PROVIDED every successful `GetToken` payload
object itself carries both-empty-or-both-non-empty token fields, the client's
access and refresh tokens are both empty or both non-empty. (The
counterexample forces the proviso: an unbalanced payload breaks the
invariant.) -/
theorem c6_token_parity_invariant (a : AqaraClient) (h : Reachable a) : tokensOk a := by
  induction h with
  | init region appID keyID appKey account debug => exact Or.inl ⟨rfl, rfl⟩
  | authCode a nonce timestamp tr _ ih => exact ih
  | devices a nonce timestamp tr _ ih => exact ih
  | token a authCode nonce timestamp tr _ hbal ih =>
    rcases tr with _ | ⟨status, body⟩
    · exact Or.inl ⟨rfl, rfl⟩
    · by_cases hs : status = 200
      · subst hs
        rcases body with _ | _ | env
        · exact Or.inl ⟨rfl, rfl⟩
        · exact Or.inl ⟨rfl, rfl⟩
        · by_cases hc : (decodeEnvelope env).code = 0
          · have hc0 : env.code.getD 0 = 0 := hc
            rcases henv : env.result with _ | ⟨_ | r⟩
            · left
              constructor <;>
                simp [GetToken, apiCall, hc0, decodeEnvelope, henv, unmarshalTokenResult]
            · left
              constructor <;>
                simp [GetToken, apiCall, hc0, decodeEnvelope, henv, unmarshalTokenResult]
            · rcases hbal env r rfl hc henv with ⟨h1, h2⟩ | ⟨h1, h2⟩
              · left
                constructor <;>
                  simp [GetToken, apiCall, hc0, decodeEnvelope, henv, unmarshalTokenResult,
                    h1, h2]
              · right
                constructor <;>
                  simp [GetToken, apiCall, hc0, decodeEnvelope, henv, unmarshalTokenResult,
                    h1, h2]
          · have hc0 : ¬ env.code.getD 0 = 0 := hc
            have ha : (GetToken a authCode nonce timestamp (.response 200 (.json env))).1 = a := by
              simp [GetToken, apiCall, hc0, decodeEnvelope]
            rw [ha]
            exact ih
      · left
        constructor <;> simp [GetToken, apiCall, hs, unmarshalTokenResult]

/-- Witness for C6 amended: a trace of one failed `GetToken` step from `New`
(a network error is vacuously balanced) satisfies the invariant. -/
theorem c6_token_parity_invariant_witness :
    tokensOk (GetToken (New "open-ger.aqara.com" "appid" "keyid" "appkey" "acct" false)
      "ac" "nonce" "ts" .networkError).1 :=
  c6_token_parity_invariant _
    (Reachable.token _ "ac" "nonce" "ts" .networkError
      (Reachable.init "open-ger.aqara.com" "appid" "keyid" "appkey" "acct" false)
      (fun _ _ h => nomatch h))

/-- Lowercase hexadecimal alphabet, as a predicate on characters. -/
def isLowerHexChar (c : Char) : Prop :=
  (48 ≤ c.toNat ∧ c.toNat ≤ 57) ∨ (97 ≤ c.toNat ∧ c.toNat ≤ 102)

instance (c : Char) : Decidable (isLowerHexChar c) :=
  inferInstanceAs (Decidable ((48 ≤ c.toNat ∧ c.toNat ≤ 57) ∨ (97 ≤ c.toNat ∧ c.toNat ≤ 102)))

theorem leBytes_length (n x : Nat) : (leBytes n x).length = n := by
  induction n generalizing x with
  | zero => rfl
  | succ n ih => simp [leBytes, ih]

theorem leBytes_lt (n x : Nat) : ∀ b ∈ leBytes n x, b < 256 := by
  induction n generalizing x with
  | zero => intro b hb; cases hb
  | succ n ih =>
    intro b hb
    simp only [leBytes, List.mem_cons] at hb
    rcases hb with rfl | hb
    · exact Nat.mod_lt _ (by omega)
    · exact ih (x / 256) b hb

theorem md5Bytes_length (msg : List Nat) : (md5Bytes msg).length = 16 := by
  simp [md5Bytes, leBytes_length]

theorem md5Bytes_lt (msg : List Nat) : ∀ b ∈ md5Bytes msg, b < 256 := by
  intro b hb
  simp only [md5Bytes, List.mem_append] at hb
  rcases hb with ((hb | hb) | hb) | hb <;> exact leBytes_lt _ _ b hb

theorem hexEncode_length (bytes : List Nat) : (hexEncode bytes).length = 2 * bytes.length := by
  show (bytes.flatMap hexPair).length = 2 * bytes.length
  induction bytes with
  | nil => rfl
  | cons b bs ih =>
    rw [List.flatMap_cons, List.length_append, ih]
    simp [hexPair]
    omega

theorem hexTable_getD_hex (m : Nat) (h : m < 16) : isLowerHexChar (hexTable.getD m '0') := by
  interval_cases m <;> decide

theorem hexPair_chars (b : Nat) (hb : b < 256) : ∀ c ∈ hexPair b, isLowerHexChar c := by
  have h1 : b >>> 4 < 16 := by
    rw [Nat.shiftRight_eq_div_pow]
    omega
  have h2 : b &&& 15 < 16 := Nat.lt_of_le_of_lt Nat.and_le_right (by omega)
  intro c hc
  simp only [hexPair, List.mem_cons, List.not_mem_nil, or_false] at hc
  rcases hc with rfl | rfl
  · exact hexTable_getD_hex _ h1
  · exact hexTable_getD_hex _ h2

theorem hexEncode_chars (bytes : List Nat) (hb : ∀ b ∈ bytes, b < 256) :
    ∀ c ∈ (hexEncode bytes).data, isLowerHexChar c := by
  intro c hc
  have hc2 : c ∈ bytes.flatMap hexPair := hc
  rw [List.mem_flatMap] at hc2
  obtain ⟨b, hbm, hcp⟩ := hc2
  exact hexPair_chars b (hb b hbm) c hcp

/-- C7: the signature is always a 32-character string over the lowercase hex
alphabet, and `sign` is invariant under changing the ASCII letter case of the
access token, nonce, timestamp, appID, keyID or appKey (inputs related by
equal character-wise lowerings yield equal signatures). -/
theorem c7_sign_hex_output_and_case_invariance :
    (∀ (a : AqaraClient) (accessToken nonce timestamp : String),
        (a.sign accessToken nonce timestamp).length = 32 ∧
          ∀ c ∈ (a.sign accessToken nonce timestamp).data, isLowerHexChar c)
    ∧ (∀ (a₁ a₂ : AqaraClient) (tok₁ tok₂ n₁ n₂ t₁ t₂ : String),
        toLowerStr a₁.appID = toLowerStr a₂.appID →
        toLowerStr a₁.keyID = toLowerStr a₂.keyID →
        toLowerStr a₁.appKey = toLowerStr a₂.appKey →
        toLowerStr tok₁ = toLowerStr tok₂ →
        toLowerStr n₁ = toLowerStr n₂ →
        toLowerStr t₁ = toLowerStr t₂ →
        a₁.sign tok₁ n₁ t₁ = a₂.sign tok₂ n₂ t₂) := by
  constructor
  · intro a accessToken nonce timestamp
    constructor
    · show (hexEncode (md5Bytes _)).length = 32
      rw [hexEncode_length, md5Bytes_length]
    · exact hexEncode_chars _ (md5Bytes_lt _)
  · intro a₁ a₂ tok₁ tok₂ n₁ n₂ t₁ t₂ hApp hKey hSec hTok hN hT
    have hlen : (tok₁.length ≠ 0) = (tok₂.length ≠ 0) := by
      rw [← toLowerStr_length tok₁, ← toLowerStr_length tok₂, hTok]
    simp only [AqaraClient.sign]
    by_cases h1 : tok₁.length ≠ 0
    · have h2 : tok₂.length ≠ 0 := hlen ▸ h1
      rw [if_pos h1, if_pos h2]
      have hstr :
          toLowerStr ("Accesstoken=" ++ tok₁ ++ "&Appid=" ++ a₁.appID ++ "&Keyid=" ++
              a₁.keyID ++ "&Nonce=" ++ n₁ ++ "&Time=" ++ t₁ ++ a₁.appKey) =
            toLowerStr ("Accesstoken=" ++ tok₂ ++ "&Appid=" ++ a₂.appID ++ "&Keyid=" ++
              a₂.keyID ++ "&Nonce=" ++ n₂ ++ "&Time=" ++ t₂ ++ a₂.appKey) := by
        simp only [toLowerStr_append, hApp, hKey, hSec, hTok, hN, hT]
      rw [toLowerGo_congr _ _ hstr]
    · have h2 : ¬ tok₂.length ≠ 0 := hlen ▸ h1
      rw [if_neg h1, if_neg h2]
      have hstr :
          toLowerStr ("Appid=" ++ a₁.appID ++ "&Keyid=" ++ a₁.keyID ++ "&Nonce=" ++ n₁ ++
              "&Time=" ++ t₁ ++ a₁.appKey) =
            toLowerStr ("Appid=" ++ a₂.appID ++ "&Keyid=" ++ a₂.keyID ++ "&Nonce=" ++ n₂ ++
              "&Time=" ++ t₂ ++ a₂.appKey) := by
        simp only [toLowerStr_append, hApp, hKey, hSec, hN, hT]
      rw [toLowerGo_congr _ _ hstr]

/-- Witness for C7: a concrete 32-character check, and two concrete clients
and inputs differing only in ASCII letter case signing identically. -/
theorem c7_sign_hex_output_and_case_invariance_witness :
    ((New "open-ger.aqara.com" "AppID" "KeyID" "AppKey" "acct" false).sign
        "Tok" "NonCE" "123").length = 32
    ∧ (New "open-ger.aqara.com" "AppID" "KeyID" "AppKey" "acct" false).sign "Tok" "NonCE" "123"
        = (New "open-cn.aqara.com" "appid" "keyid" "appkey" "other" true).sign
            "tok" "nonce" "123" :=
  ⟨(c7_sign_hex_output_and_case_invariance.1
      (New "open-ger.aqara.com" "AppID" "KeyID" "AppKey" "acct" false) "Tok" "NonCE" "123").1,
   c7_sign_hex_output_and_case_invariance.2
      (New "open-ger.aqara.com" "AppID" "KeyID" "AppKey" "acct" false)
      (New "open-cn.aqara.com" "appid" "keyid" "appkey" "other" true)
      "Tok" "tok" "NonCE" "nonce" "123" "123"
      (by decide) (by decide) (by decide) (by decide) (by decide) (by decide)⟩

/-- The authenticated and unauthenticated canonical strings never coincide
(the former is 13 + |accessToken| characters longer). Whether the two MD5
signatures themselves always differ — the spec's divergence property — is the
separate question whether these string pairs ever collide under MD5. -/
theorem canonicalStringSpec_ne (appID keyID appKey tok nonce timestamp : String)
    (h : tok ≠ "") :
    canonicalStringSpec appID keyID appKey tok nonce timestamp ≠
      canonicalStringSpec appID keyID appKey "" nonce timestamp := by
  intro heq
  have hlen := congrArg String.length heq
  have e1 : ("Accesstoken=" : String).length = 12 := rfl
  have e2 : ("&Appid=" : String).length = 7 := rfl
  have e3 : ("Appid=" : String).length = 6 := rfl
  simp only [canonicalStringSpec, if_pos h, if_neg (by simp : ¬ ("" : String) ≠ ""),
    String.length_append, e1, e2, e3] at hlen
  omega

/-- Closed instance of `canonicalStringSpec_ne` at a concrete token. -/
theorem canonicalStringSpec_ne_witness :
    canonicalStringSpec "appid" "keyid" "appkey" "tok" "nonce" "ts" ≠
      canonicalStringSpec "appid" "keyid" "appkey" "" "nonce" "ts" :=
  canonicalStringSpec_ne "appid" "keyid" "appkey" "tok" "nonce" "ts" (by decide)

end Aqara
